import Mathlib

/-!
Verification of the Yahoo-finance proxy (`src/yahoo_proxy.py`).

The module is shallowly embedded: prices are rationals, JSON objects are
association lists of key-value pairs, the module-global `cache` dict is an
association list threaded through the handlers, `datetime.now()` is an
explicit `now : Nat` parameter (seconds), and the yfinance collaborator
(`ticker.info` plus `ticker.history`) is a function from symbols to either
an exception message or a pair of instrument metadata and the list of daily
closing prices (oldest first).
-/

namespace YahooProxy

/-- JSON scalar values occurring in the proxy's response envelopes. -/
inductive JVal where
  | str : String → JVal
  | num : Rat → JVal
  deriving DecidableEq

/-- A JSON object such as the `meta` dict: ordered key-value pairs. -/
abbrev Meta := List (String × JVal)

/-- The `{chart: {result: [{meta: ...}], error: null}}` envelope, holding the
single `meta` object of `result[0]` and whether the chart-level
`error: null` key is present (the bulk path omits it). -/
structure Chart where
  meta : Meta
  hasErrorKey : Bool
  deriving DecidableEq

/-- Instrument metadata consumed from `ticker.info` (each field through
`info.get`, hence optional). -/
structure FetchInfo where
  currency : Option String
  previousClose : Option Rat
  shortName : Option String
  longName : Option String
  deriving DecidableEq

/-- The fetch collaborator: `ticker.info` and the `2d` closing history for a
symbol, or the message of a raised exception. -/
abbrev Fetcher := String → Except String (FetchInfo × List Rat)

/-- One value of the module-global `cache` dict: `{'data': ..., 'timestamp': ...}`. -/
structure CacheEntry where
  data : Chart
  timestamp : Nat
  deriving DecidableEq

/-- The module-global `cache` dict, as an insertion-ordered association list. -/
abbrev Cache := List (String × CacheEntry)

/-- Keys of an association list, in order. -/
def keys {α : Type} (d : List (String × α)) : List String := d.map Prod.fst

/-- Python-dict lookup `d[k]` / `k in d` on the association-list model. -/
def assocLookup {α : Type} (d : List (String × α)) (k : String) : Option α :=
  (d.find? (fun p => p.1 == k)).map (fun p => p.2)

/-- Python-dict assignment `d[k] = v`: overwrite in place if the key exists,
else append (CPython dicts preserve insertion order). -/
def assocInsert {α : Type} (d : List (String × α)) (k : String) (v : α) :
    List (String × α) :=
  if d.any (fun p => p.1 == k) then
    d.map (fun p => if p.1 == k then (k, v) else p)
  else d ++ [(k, v)]

/-- The `CACHE_DURATION = 60` configuration constant (seconds). -/
def CACHE_DURATION : Nat := 60

/-- The `is_cache_valid` predicate: `datetime.now() - timestamp < timedelta(seconds=CACHE_DURATION)`. -/
def is_cache_valid (now timestamp : Nat) : Bool :=
  decide (now - timestamp < CACHE_DURATION)

/-- Value of `float(hist['Close'].iloc[-1])`: the most recent close
(defaulting to 0 on an empty list; the code only evaluates it on a
non-empty history). -/
def lastClose (closes : List Rat) : Rat := closes.getLastD 0

/-- Value of `float(hist['Close'].iloc[-2])`: the second-most-recent close. -/
def secondLastClose (closes : List Rat) : Rat := closes.getD (closes.length - 2) 0

/-- The single-symbol path's `previous_close` chain (`yahoo_proxy.py` lines
49-55): metadata value if present, else the second-most-recent close when
more than one price point exists, else the current price. -/
def previousCloseSingle (info : FetchInfo) (closes : List Rat) : Rat :=
  match info.previousClose with
  | none => if closes.length > 1 then secondLastClose closes else lastClose closes
  | some v => v

/-- The bulk path's `previous_close` chain (`yahoo_proxy.py` lines 122-126):
`info.get('previousClose', current_price)`, then, when that value differs
from the current price and more than one price point exists, the
second-most-recent close; otherwise the value itself if truthy, else the
current price. -/
def previousCloseBulk (info : FetchInfo) (closes : List Rat) : Rat :=
  let current := lastClose closes
  let pc0 := info.previousClose.getD current
  if pc0 ≠ current ∧ closes.length > 1 then secondLastClose closes
  else if pc0 ≠ 0 then pc0 else current

/-- The guarded percentage: `(change / previous_close) * 100 if previous_close != 0 else 0`. -/
def changePercent (current prev : Rat) : Rat :=
  if prev ≠ 0 then (current - prev) / prev * 100 else 0

/-- The single-symbol `meta` object (`yahoo_proxy.py` lines 65-75). -/
def singleMeta (symbol : String) (info : FetchInfo) (closes : List Rat) (now : Nat) : Meta :=
  let current := lastClose closes
  let prev := previousCloseSingle info closes
  [("currency", JVal.str (info.currency.getD "INR")),
   ("symbol", JVal.str symbol),
   ("regularMarketPrice", JVal.num current),
   ("previousClose", JVal.num prev),
   ("regularMarketChange", JVal.num (current - prev)),
   ("regularMarketChangePercent", JVal.num (changePercent current prev / 100)),
   ("regularMarketTime", JVal.num (now : Rat)),
   ("shortName", JVal.str (info.shortName.getD symbol)),
   ("longName", JVal.str (info.longName.getD symbol))]

/-- The bulk per-symbol `meta` object (`yahoo_proxy.py` lines 134-141). -/
def bulkMeta (symbol : String) (info : FetchInfo) (closes : List Rat) (_now : Nat) : Meta :=
  let current := lastClose closes
  let prev := previousCloseBulk info closes
  [("symbol", JVal.str symbol),
   ("regularMarketPrice", JVal.num current),
   ("previousClose", JVal.num prev),
   ("regularMarketChange", JVal.num (current - prev)),
   ("regularMarketChangePercent", JVal.num (changePercent current prev / 100)),
   ("shortName", JVal.str (info.shortName.getD symbol))]

/-- The single-symbol response envelope, with the chart-level `error: None` key. -/
def singleChart (symbol : String) (info : FetchInfo) (closes : List Rat) (now : Nat) : Chart :=
  ⟨singleMeta symbol info closes now, true⟩

/-- The bulk per-symbol response envelope, without a chart-level `error` key. -/
def bulkChart (symbol : String) (info : FetchInfo) (closes : List Rat) (now : Nat) : Chart :=
  ⟨bulkMeta symbol info closes now, false⟩

/-- Lookup of a key inside a `meta` object. -/
def metaLookup (m : Meta) (k : String) : Option JVal :=
  (m.find? (fun p => p.1 == k)).map (fun p => p.2)

/-- One entry of the bulk result mapping: a per-symbol envelope or
`{error: <message>}`. -/
inductive BulkEntry where
  | ok : Chart → BulkEntry
  | err : String → BulkEntry
  deriving DecidableEq

/-- A response body: an envelope, an `{error: ...}` object, a bulk mapping,
or the `/health` object (timestamp and `cache_size`). -/
inductive Body where
  | chart : Chart → Body
  | errorBody : String → Body
  | bulk : List (String × BulkEntry) → Body
  | health : Nat → Nat → Body
  deriving DecidableEq

/-- The single-symbol handler's body after the cache check fails
(`yahoo_proxy.py` lines 31-92): fetch, 404 on empty history, otherwise
build the envelope, cache it and return it; an exception from the fetch
becomes a 500 with a descriptive message. Returns the HTTP status, the
body and the updated cache. -/
def freshSingle (fetch : Fetcher) (now : Nat) (cache : Cache) (symbol : String) :
    (Nat × Body) × Cache :=
  match fetch symbol with
  | Except.error e =>
      ((500, Body.errorBody ("Error fetching data for " ++ symbol ++ ": " ++ e)), cache)
  | Except.ok (info, closes) =>
      if closes.isEmpty then
        ((404, Body.errorBody ("No data available for symbol " ++ symbol)), cache)
      else
        let chart := singleChart symbol info closes now
        ((200, Body.chart chart), assocInsert cache symbol ⟨chart, now⟩)

/-- The `/api/yahoo-finance/<symbol>` handler `get_yahoo_data`
(`yahoo_proxy.py` lines 19-92): serve a valid cache entry unchanged,
otherwise run the fresh-fetch body. -/
def get_yahoo_data (fetch : Fetcher) (now : Nat) (cache : Cache) (symbol : String) :
    (Nat × Body) × Cache :=
  match assocLookup cache symbol with
  | some e =>
      if is_cache_valid now e.timestamp then ((200, Body.chart e.data), cache)
      else freshSingle fetch now cache symbol
  | none => freshSingle fetch now cache symbol

/-- The bulk loop body after a cache miss for one symbol (`yahoo_proxy.py`
lines 115-157): fetch; on non-empty history build and cache the bulk
envelope, on empty history record `{error: 'No data for <symbol>'}`, and
on an exception record `{error: str(e)}`. -/
def bulkFresh (fetch : Fetcher) (now : Nat) (cache : Cache) (symbol : String) :
    BulkEntry × Cache :=
  match fetch symbol with
  | Except.error e => (BulkEntry.err e, cache)
  | Except.ok (info, closes) =>
      if closes.isEmpty then (BulkEntry.err ("No data for " ++ symbol), cache)
      else
        let chart := bulkChart symbol info closes now
        (BulkEntry.ok chart, assocInsert cache symbol ⟨chart, now⟩)

/-- One iteration of the bulk loop (`yahoo_proxy.py` lines 108-157): cached
data when the entry is valid, else the fresh-fetch body. -/
def bulkProcessSymbol (fetch : Fetcher) (now : Nat) (cache : Cache) (symbol : String) :
    BulkEntry × Cache :=
  match assocLookup cache symbol with
  | some e =>
      if is_cache_valid now e.timestamp then (BulkEntry.ok e.data, cache)
      else bulkFresh fetch now cache symbol
  | none => bulkFresh fetch now cache symbol

/-- The bulk loop over the symbol list, accumulating the `results` dict and
threading the cache. -/
def bulkLoop (fetch : Fetcher) (now : Nat) :
    List String → Cache → List (String × BulkEntry) → List (String × BulkEntry) × Cache
  | [], cache, results => (results, cache)
  | s :: rest, cache, results =>
      let r := bulkProcessSymbol fetch now cache s
      bulkLoop fetch now rest r.2 (assocInsert results s r.1)

/-- The `/api/yahoo-finance/bulk` handler `get_bulk_yahoo_data`
(`yahoo_proxy.py` lines 94-162): 400 on an empty `symbols` parameter, else
split on commas, strip each symbol, and run the per-symbol loop; always
status 200 with the results mapping. -/
def get_bulk_yahoo_data (fetch : Fetcher) (now : Nat) (cache : Cache)
    (symbolsParam : String) : (Nat × Body) × Cache :=
  if symbolsParam = "" then ((400, Body.errorBody "No symbols provided"), cache)
  else
    let symbols := (symbolsParam.splitOn ",").map (fun s => s.trim)
    let r := bulkLoop fetch now symbols cache []
    ((200, Body.bulk r.1), r.2)

/-- The `/api/nifty-data` handler: delegates to the single-symbol path for
the fixed symbol. -/
def get_nifty_data (fetch : Fetcher) (now : Nat) (cache : Cache) : (Nat × Body) × Cache :=
  get_yahoo_data fetch now cache "^NSEI"

/-- The `/health` handler (`yahoo_proxy.py` lines 169-176): status, the
current time and `len(cache)`. -/
def health_check (now : Nat) (cache : Cache) : Nat × Body :=
  (200, Body.health now cache.length)

/-- One inbound request, for reasoning about request sequences. -/
inductive Request where
  | single : String → Request
  | bulk : String → Request
  | nifty : Request
  | health : Request

/-- The cache after serving one request. -/
def stepCache (fetch : Fetcher) (now : Nat) (cache : Cache) : Request → Cache
  | Request.single s => (get_yahoo_data fetch now cache s).2
  | Request.bulk p => (get_bulk_yahoo_data fetch now cache p).2
  | Request.nifty => (get_nifty_data fetch now cache).2
  | Request.health => cache

/-- The cache after a sequence of requests, each with its own fetch outcome
and arrival time. -/
def runRequests (cache : Cache) : List (Fetcher × Nat × Request) → Cache
  | [] => cache
  | t :: rest => runRequests (stepCache t.1 t.2.1 cache t.2.2) rest

/-! Concrete instances used by witnesses. -/

/-- A metadata object with every field absent. -/
def infoW : FetchInfo := ⟨none, none, none, none⟩

/-- A fetcher that always raises. -/
def fetchFailW : Fetcher := fun _ => Except.error "boom"

/-- A fetcher that always returns an empty price history. -/
def fetchEmptyW : Fetcher := fun _ => Except.ok (infoW, [])

/-- A cached envelope used by witnesses. -/
def chartW : Chart := ⟨[("symbol", JVal.str "A")], true⟩

/-- A one-entry cache whose entry for `A` was written at time 100. -/
def cacheW : Cache := [("A", ⟨chartW, 100⟩)]

/-! Claim theorems. -/

/-- C8: a bulk request whose `symbols` parameter is empty or missing is
rejected with status 400 and body `{error: 'No symbols provided'}`, for
every fetch collaborator and with the cache untouched — so before any
fetch attempt. -/
theorem bulk_rejects_empty_symbols (fetch : Fetcher) (now : Nat) (cache : Cache) :
    get_bulk_yahoo_data fetch now cache "" =
      ((400, Body.errorBody "No symbols provided"), cache) := by
  simp [get_bulk_yahoo_data]

/-- C2: when the cache holds an entry for the symbol whose age is strictly
below `CACHE_DURATION`, the single-symbol handler returns exactly the
cached body with status 200, leaves the cache unchanged, and its result
does not depend on the fetch collaborator at all (no fetch occurs). -/
theorem cache_hit_returns_cached (now : Nat) (cache : Cache) (symbol : String)
    (e : CacheEntry) (hl : assocLookup cache symbol = some e)
    (hv : now - e.timestamp < CACHE_DURATION) :
    ∀ fetch : Fetcher,
      get_yahoo_data fetch now cache symbol = ((200, Body.chart e.data), cache) := by
  intro fetch
  unfold get_yahoo_data
  rw [hl]
  simp [is_cache_valid, hv]

/-- Witness for C2 at a concrete cache, time and (failing) fetcher. -/
theorem cache_hit_returns_cached_witness :
    get_yahoo_data fetchFailW 130 cacheW "A" = ((200, Body.chart chartW), cacheW) :=
  cache_hit_returns_cached 130 cacheW "A" ⟨chartW, 100⟩ (by decide) (by decide) fetchFailW

/-- C7: on the single-symbol path, an empty price history yields status 404
with body `{error: 'No data available for symbol <symbol>'}`; an exception
from the fetch collaborator yields status 500 with body
`{error: 'Error fetching data for <symbol>: <detail>'}`; and every outcome
of the handler carries status 200, 404 or 500 — no fetch error escapes as
an unhandled fault. -/
theorem single_error_outcomes (fetch : Fetcher) (now : Nat) (cache : Cache) (symbol : String) :
    (∀ info, fetch symbol = Except.ok (info, ([] : List Rat)) →
      freshSingle fetch now cache symbol =
        ((404, Body.errorBody ("No data available for symbol " ++ symbol)), cache)) ∧
    (∀ e, fetch symbol = Except.error e →
      freshSingle fetch now cache symbol =
        ((500, Body.errorBody ("Error fetching data for " ++ symbol ++ ": " ++ e)), cache)) ∧
    ((get_yahoo_data fetch now cache symbol).1.1 = 200 ∨
      (get_yahoo_data fetch now cache symbol).1.1 = 404 ∨
      (get_yahoo_data fetch now cache symbol).1.1 = 500) := by
  refine ⟨?_, ?_, ?_⟩
  · intro info h
    unfold freshSingle
    rw [h]
    simp
  · intro e h
    unfold freshSingle
    rw [h]
  · unfold get_yahoo_data freshSingle
    rcases assocLookup cache symbol with _ | e
    · rcases fetch symbol with e | pr
      · simp
      · by_cases hc : pr.2.isEmpty <;> simp [hc]
    · by_cases hv : is_cache_valid now e.timestamp
      · simp [hv]
      · rcases fetch symbol with e2 | pr
        · simp [hv]
        · by_cases hc : pr.2.isEmpty <;> simp [hv, hc]

/-- Witness for C7 at a concrete fetcher returning an empty history. -/
theorem single_error_outcomes_witness :
    freshSingle fetchEmptyW 0 [] "X" =
      ((404, Body.errorBody ("No data available for symbol " ++ "X")), []) :=
  (single_error_outcomes fetchEmptyW 0 [] "X").1 infoW rfl

/-- The `(change / previous_close) * 100 ... / 100` round trip collapses to
the plain guarded ratio. -/
lemma changePercent_div (current prev : Rat) :
    changePercent current prev / 100 =
      if prev = 0 then 0 else (current - prev) / prev := by
  by_cases hp : prev = 0
  · simp [changePercent, hp]
  · simp only [changePercent, hp, if_neg, ne_eq, not_false_eq_true, if_true, if_false]
    rw [mul_div_assoc]
    norm_num

/-- C3: in both paths, the emitted `regularMarketChangePercent` equals
`(currentPrice - previousClose) / previousClose` when `previousClose ≠ 0`
and `0` when `previousClose = 0`; the division is guarded on both paths. -/
theorem emitted_change_ratio (symbol : String) (info : FetchInfo) (closes : List Rat)
    (now : Nat) :
    metaLookup (singleMeta symbol info closes now) "regularMarketChangePercent" =
      some (JVal.num (if previousCloseSingle info closes = 0 then 0
        else (lastClose closes - previousCloseSingle info closes) /
          previousCloseSingle info closes)) ∧
    metaLookup (bulkMeta symbol info closes now) "regularMarketChangePercent" =
      some (JVal.num (if previousCloseBulk info closes = 0 then 0
        else (lastClose closes - previousCloseBulk info closes) /
          previousCloseBulk info closes)) := by
  constructor
  · show some (JVal.num (changePercent (lastClose closes)
      (previousCloseSingle info closes) / 100)) = _
    rw [changePercent_div]
  · show some (JVal.num (changePercent (lastClose closes)
      (previousCloseBulk info closes) / 100)) = _
    rw [changePercent_div]

/-- Modelled from the spec wording of the previousClose fallback chain, for
comparison with the code's chain: metadata value if present, else the
second-most-recent close when at least two price points exist, else the
current price. -/
def specPreviousClose (info : FetchInfo) (closes : List Rat) : Rat :=
  match info.previousClose with
  | some v => v
  | none => if 2 ≤ closes.length then secondLastClose closes else lastClose closes

/-- The code's single-path chain agrees with the spec's description. -/
lemma previousCloseSingle_eq_spec (info : FetchInfo) (closes : List Rat) :
    previousCloseSingle info closes = specPreviousClose info closes := by
  unfold previousCloseSingle specPreviousClose
  cases info.previousClose with
  | none =>
    by_cases h : closes.length > 1
    · rw [if_pos h, if_pos (by omega)]
    · rw [if_neg h, if_neg (by omega)]
  | some v => rfl

/-- A fetcher that always returns a two-point history with bare metadata. -/
def fetchTwoW : Fetcher := fun _ => Except.ok (infoW, [10, 12])

/-- C5: on the single-symbol path with at least one price point, the handler
returns the assembled envelope and caches it, and the envelope's
`previousClose` follows exactly the chain metadata-value / second-most-recent
close / current price. -/
theorem single_previous_close_chain (fetch : Fetcher) (now : Nat) (cache : Cache)
    (symbol : String) (info : FetchInfo) (closes : List Rat)
    (hf : fetch symbol = Except.ok (info, closes)) (hne : closes ≠ []) :
    freshSingle fetch now cache symbol =
      ((200, Body.chart (singleChart symbol info closes now)),
        assocInsert cache symbol ⟨singleChart symbol info closes now, now⟩) ∧
    metaLookup (singleMeta symbol info closes now) "previousClose" =
      some (JVal.num (specPreviousClose info closes)) := by
  constructor
  · have hEmp : closes.isEmpty = false := by
      cases closes with
      | nil => exact absurd rfl hne
      | cons a l => rfl
    unfold freshSingle
    rw [hf]
    simp [hEmp]
  · show some (JVal.num (previousCloseSingle info closes)) = _
    rw [previousCloseSingle_eq_spec]

/-- Witness for C5 at a concrete two-point history. -/
theorem single_previous_close_chain_witness :
    freshSingle fetchTwoW 7 [] "T" =
      ((200, Body.chart (singleChart "T" infoW [10, 12] 7)),
        assocInsert [] "T" ⟨singleChart "T" infoW [10, 12] 7, 7⟩) ∧
    metaLookup (singleMeta "T" infoW [10, 12] 7) "previousClose" =
      some (JVal.num (specPreviousClose infoW [10, 12])) :=
  single_previous_close_chain fetchTwoW 7 [] "T" infoW [10, 12] rfl (by decide)

/-- Metadata reporting previousClose 100 and nothing else. -/
def infoC1 : FetchInfo := ⟨none, some 100, none, none⟩

/-- Closing history 99 then 105 (current price 105). -/
def closesC1 : List Rat := [99, 105]

/-- C1 (code bug evidence): for the identical fetch result — metadata
previousClose 100 present, history [99, 105] — the single path takes the
metadata value 100 while the bulk path overrides it with the second-most-
recent close 99, so the two paths emit different previousClose values. -/
theorem bulk_single_prev_close_diverge :
    previousCloseSingle infoC1 closesC1 = 100 ∧
    previousCloseBulk infoC1 closesC1 = 99 ∧
    metaLookup (singleMeta "A" infoC1 closesC1 0) "previousClose" ≠
      metaLookup (bulkMeta "A" infoC1 closesC1 0) "previousClose" := by
  refine ⟨rfl, by decide, by decide⟩

/-- C6 (counterexample): for a concrete successful fetch the single-symbol
meta carries the `currency` and `regularMarketTime` keys but the bulk
per-symbol meta carries neither, so the two envelopes do not differ only by
the outer error field. -/
theorem bulk_envelope_key_mismatch :
    metaLookup (singleChart "A" infoW [10, 12] 5).meta "currency" =
      some (JVal.str "INR") ∧
    metaLookup (bulkChart "A" infoW [10, 12] 5).meta "currency" = none ∧
    metaLookup (singleChart "A" infoW [10, 12] 5).meta "regularMarketTime" =
      some (JVal.num 5) ∧
    metaLookup (bulkChart "A" infoW [10, 12] 5).meta "regularMarketTime" = none := by
  decide

/-- C6 (amended): the bulk per-symbol envelope keeps the nesting but its
meta holds only the keys symbol, regularMarketPrice, previousClose,
regularMarketChange, regularMarketChangePercent, shortName — omitting
currency, regularMarketTime and longName as well as the chart-level error
key; the values of symbol, regularMarketPrice and shortName always match
the single path, and the remaining shared keys match whenever both paths
determine the same previousClose. -/
theorem bulk_envelope_shape (symbol : String) (info : FetchInfo) (closes : List Rat)
    (now : Nat) :
    keys (singleMeta symbol info closes now) =
      ["currency", "symbol", "regularMarketPrice", "previousClose",
       "regularMarketChange", "regularMarketChangePercent", "regularMarketTime",
       "shortName", "longName"] ∧
    keys (bulkMeta symbol info closes now) =
      ["symbol", "regularMarketPrice", "previousClose", "regularMarketChange",
       "regularMarketChangePercent", "shortName"] ∧
    (singleChart symbol info closes now).hasErrorKey = true ∧
    (bulkChart symbol info closes now).hasErrorKey = false ∧
    metaLookup (bulkMeta symbol info closes now) "symbol" =
      metaLookup (singleMeta symbol info closes now) "symbol" ∧
    metaLookup (bulkMeta symbol info closes now) "regularMarketPrice" =
      metaLookup (singleMeta symbol info closes now) "regularMarketPrice" ∧
    metaLookup (bulkMeta symbol info closes now) "shortName" =
      metaLookup (singleMeta symbol info closes now) "shortName" ∧
    (previousCloseBulk info closes = previousCloseSingle info closes →
      metaLookup (bulkMeta symbol info closes now) "previousClose" =
        metaLookup (singleMeta symbol info closes now) "previousClose" ∧
      metaLookup (bulkMeta symbol info closes now) "regularMarketChange" =
        metaLookup (singleMeta symbol info closes now) "regularMarketChange" ∧
      metaLookup (bulkMeta symbol info closes now) "regularMarketChangePercent" =
        metaLookup (singleMeta symbol info closes now) "regularMarketChangePercent") := by
  refine ⟨rfl, rfl, rfl, rfl, rfl, rfl, rfl, ?_⟩
  intro h
  refine ⟨?_, ?_, ?_⟩
  · show some (JVal.num (previousCloseBulk info closes)) =
      some (JVal.num (previousCloseSingle info closes))
    rw [h]
  · show some (JVal.num (lastClose closes - previousCloseBulk info closes)) =
      some (JVal.num (lastClose closes - previousCloseSingle info closes))
    rw [h]
  · show some (JVal.num (changePercent (lastClose closes)
        (previousCloseBulk info closes) / 100)) =
      some (JVal.num (changePercent (lastClose closes)
        (previousCloseSingle info closes) / 100))
    rw [h]

/-- Witness for C6's amended theorem at a one-point history where the two
previousClose chains agree. -/
theorem bulk_envelope_shape_witness :
    metaLookup (bulkMeta "A" infoW [10] 3) "previousClose" =
      metaLookup (singleMeta "A" infoW [10] 3) "previousClose" :=
  ((bulk_envelope_shape "A" infoW [10] 3).2.2.2.2.2.2.2 (by decide)).1

/-! Association-list lemmas shared by the bulk-mapping and cache claims. -/

/-- Overwriting in place never changes the key sequence. -/
lemma keys_map_replace {α : Type} (d : List (String × α)) (k : String) (v : α) :
    keys (List.map (fun p => if p.1 == k then (k, v) else p) d) = keys d := by
  induction d with
  | nil => rfl
  | cons hd tl ih =>
    simp only [List.map_cons, keys] at ih ⊢
    by_cases hb : (hd.1 == k) = true
    · rw [if_pos hb, ih, eq_of_beq hb]
    · rw [if_neg hb, ih]

/-- The `k in d` test agrees with membership in the key sequence. -/
lemma any_key_iff {α : Type} (d : List (String × α)) (k : String) :
    d.any (fun p => p.1 == k) = true ↔ k ∈ keys d := by
  simp [keys, List.any_eq_true, List.mem_map]

/-- Key sequence after a dict assignment. -/
lemma keys_assocInsert {α : Type} (d : List (String × α)) (k : String) (v : α) :
    keys (assocInsert d k v) =
      if d.any (fun p => p.1 == k) = true then keys d else keys d ++ [k] := by
  unfold assocInsert
  by_cases h : d.any (fun p => p.1 == k) = true
  · rw [if_pos h, if_pos h, keys_map_replace]
  · rw [if_neg h, if_neg h]
    simp [keys]

/-- Membership in the keys after a dict assignment. -/
lemma mem_keys_assocInsert {α : Type} (d : List (String × α)) (k : String) (v : α)
    (a : String) : a ∈ keys (assocInsert d k v) ↔ a ∈ keys d ∨ a = k := by
  rw [keys_assocInsert]
  by_cases h : d.any (fun p => p.1 == k) = true
  · rw [if_pos h]
    have hk : k ∈ keys d := (any_key_iff d k).1 h
    constructor
    · exact Or.inl
    · rintro (ha | rfl)
      · exact ha
      · exact hk
  · rw [if_neg h]
    simp [List.mem_append]

/-- A dict assignment keeps the keys distinct. -/
lemma nodup_keys_assocInsert {α : Type} (d : List (String × α)) (k : String) (v : α)
    (h : (keys d).Nodup) : (keys (assocInsert d k v)).Nodup := by
  rw [keys_assocInsert]
  by_cases hh : d.any (fun p => p.1 == k) = true
  · rw [if_pos hh]
    exact h
  · rw [if_neg hh]
    have hk : k ∉ keys d := fun hmem => hh ((any_key_iff d k).2 hmem)
    simp [List.nodup_append, h, hk]

/-- A dict assignment never shrinks the dict. -/
lemma length_assocInsert {α : Type} (d : List (String × α)) (k : String) (v : α) :
    d.length ≤ (assocInsert d k v).length := by
  unfold assocInsert
  by_cases h : d.any (fun p => p.1 == k) = true
  · rw [if_pos h]
    simp
  · rw [if_neg h]
    simp

/-- Cache evolution across one operation: the size does not shrink, no key
is removed, and key distinctness persists. -/
def Grows (c c2 : Cache) : Prop :=
  c.length ≤ c2.length ∧ (∀ s, s ∈ keys c → s ∈ keys c2) ∧
    ((keys c).Nodup → (keys c2).Nodup)

lemma grows_refl (c : Cache) : Grows c c :=
  ⟨le_refl _, fun _ h => h, fun h => h⟩

lemma grows_trans {a b c : Cache} (h1 : Grows a b) (h2 : Grows b c) : Grows a c :=
  ⟨le_trans h1.1 h2.1, fun s hs => h2.2.1 s (h1.2.1 s hs), fun h => h2.2.2 (h1.2.2 h)⟩

lemma grows_assocInsert (c : Cache) (k : String) (v : CacheEntry) :
    Grows c (assocInsert c k v) :=
  ⟨length_assocInsert c k v, fun s hs => (mem_keys_assocInsert c k v s).2 (Or.inl hs),
    fun h => nodup_keys_assocInsert c k v h⟩

lemma freshSingle_grows (f : Fetcher) (n : Nat) (c : Cache) (s : String) :
    Grows c (freshSingle f n c s).2 := by
  unfold freshSingle
  rcases f s with e | ⟨info, closes⟩
  · exact grows_refl c
  · by_cases h : closes.isEmpty
    · simp only [h, if_true]
      exact grows_refl c
    · simp only [h, if_false]
      exact grows_assocInsert c s _

lemma get_yahoo_data_grows (f : Fetcher) (n : Nat) (c : Cache) (s : String) :
    Grows c (get_yahoo_data f n c s).2 := by
  unfold get_yahoo_data
  rcases assocLookup c s with _ | e
  · exact freshSingle_grows f n c s
  · by_cases h : is_cache_valid n e.timestamp
    · simp only [h, if_true]
      exact grows_refl c
    · simp only [h, if_false]
      exact freshSingle_grows f n c s

lemma bulkFresh_grows (f : Fetcher) (n : Nat) (c : Cache) (s : String) :
    Grows c (bulkFresh f n c s).2 := by
  unfold bulkFresh
  rcases f s with e | ⟨info, closes⟩
  · exact grows_refl c
  · by_cases h : closes.isEmpty
    · simp only [h, if_true]
      exact grows_refl c
    · simp only [h, if_false]
      exact grows_assocInsert c s _

lemma bulkProcessSymbol_grows (f : Fetcher) (n : Nat) (c : Cache) (s : String) :
    Grows c (bulkProcessSymbol f n c s).2 := by
  unfold bulkProcessSymbol
  rcases assocLookup c s with _ | e
  · exact bulkFresh_grows f n c s
  · by_cases h : is_cache_valid n e.timestamp
    · simp only [h, if_true]
      exact grows_refl c
    · simp only [h, if_false]
      exact bulkFresh_grows f n c s

lemma bulkLoop_grows (f : Fetcher) (n : Nat) (syms : List String) :
    ∀ (c : Cache) (res : List (String × BulkEntry)), Grows c (bulkLoop f n syms c res).2 := by
  induction syms with
  | nil =>
    intro c res
    exact grows_refl c
  | cons s rest ih =>
    intro c res
    exact grows_trans (bulkProcessSymbol_grows f n c s) (ih _ _)

lemma get_bulk_grows (f : Fetcher) (n : Nat) (c : Cache) (p : String) :
    Grows c (get_bulk_yahoo_data f n c p).2 := by
  unfold get_bulk_yahoo_data
  by_cases h : p = ""
  · simp only [h, if_pos rfl]
    exact grows_refl c
  · rw [if_neg h]
    exact bulkLoop_grows f n _ c []

lemma stepCache_grows (f : Fetcher) (n : Nat) (c : Cache) (r : Request) :
    Grows c (stepCache f n c r) := by
  cases r with
  | single s => exact get_yahoo_data_grows f n c s
  | bulk p => exact get_bulk_grows f n c p
  | nifty => exact get_yahoo_data_grows f n c "^NSEI"
  | health => exact grows_refl c

lemma runRequests_grows (ts : List (Fetcher × Nat × Request)) :
    ∀ c : Cache, Grows c (runRequests c ts) := by
  induction ts with
  | nil =>
    intro c
    exact grows_refl c
  | cons t rest ih =>
    intro c
    exact grows_trans (stepCache_grows t.1 t.2.1 c t.2.2) (ih _)

/-- Keys of the bulk results dict: the accumulated keys plus the symbols
still to process. -/
lemma mem_keys_bulkLoop (f : Fetcher) (n : Nat) (syms : List String) :
    ∀ (c : Cache) (res : List (String × BulkEntry)) (a : String),
      a ∈ keys (bulkLoop f n syms c res).1 ↔ a ∈ keys res ∨ a ∈ syms := by
  induction syms with
  | nil =>
    intro c res a
    simp [bulkLoop]
  | cons s rest ih =>
    intro c res a
    simp only [bulkLoop]
    rw [ih, mem_keys_assocInsert]
    simp only [List.mem_cons]
    tauto

/-- The bulk results dict keeps its keys distinct. -/
lemma nodup_keys_bulkLoop (f : Fetcher) (n : Nat) (syms : List String) :
    ∀ (c : Cache) (res : List (String × BulkEntry)),
      (keys res).Nodup → (keys (bulkLoop f n syms c res).1).Nodup := by
  induction syms with
  | nil =>
    intro c res h
    simpa [bulkLoop] using h
  | cons s rest ih =>
    intro c res h
    simp only [bulkLoop]
    exact ih _ _ (nodup_keys_assocInsert res s _ h)

/-- A fetcher that succeeds on `A` and raises on `B`. -/
def fetchMixW : Fetcher :=
  fun s => if s = "B" then Except.error "boom" else Except.ok (infoW, [10, 12])

/-- C4: a non-empty bulk request answers with status 200 and a results
mapping whose keys are distinct and are exactly the trimmed input symbols
(duplicates collapse), each key holding either a successful envelope or an
error object — for every fetch collaborator, so one symbol's failure never
prevents the others from being processed. -/
theorem bulk_result_mapping (fetch : Fetcher) (now : Nat) (cache : Cache)
    (symbolsParam : String) (h : symbolsParam ≠ "") :
    (get_bulk_yahoo_data fetch now cache symbolsParam).1.1 = 200 ∧
    ∃ results : List (String × BulkEntry),
      (get_bulk_yahoo_data fetch now cache symbolsParam).1.2 = Body.bulk results ∧
      (keys results).Nodup ∧
      (∀ a, a ∈ keys results ↔
        a ∈ (symbolsParam.splitOn ",").map (fun s => s.trim)) ∧
      (∀ p, p ∈ results →
        (∃ ch, p.2 = BulkEntry.ok ch) ∨ ∃ m, p.2 = BulkEntry.err m) := by
  constructor
  · unfold get_bulk_yahoo_data
    rw [if_neg h]
  · refine ⟨(bulkLoop fetch now ((symbolsParam.splitOn ",").map (fun s => s.trim))
      cache []).1, ?_, ?_, ?_, ?_⟩
    · unfold get_bulk_yahoo_data
      rw [if_neg h]
    · exact nodup_keys_bulkLoop fetch now _ cache [] (by simp [keys])
    · intro a
      rw [mem_keys_bulkLoop]
      simp [keys]
    · intro p _
      cases hp : p.2 with
      | ok ch => exact Or.inl ⟨ch, rfl⟩
      | err m => exact Or.inr ⟨m, rfl⟩

/-- Witness for C4 on symbols `A,B` where `A` succeeds and `B` raises. -/
theorem bulk_result_mapping_witness :
    (get_bulk_yahoo_data fetchMixW 0 [] "A,B").1.1 = 200 :=
  (bulk_result_mapping fetchMixW 0 [] "A,B" (by decide)).1

/-- C9: serving any request preserves key distinctness of the cache (at most
one entry per symbol) and removes no entry; `/health` reports exactly the
number of cache entries; and over any request sequence the reported
`cache_size` is monotonically non-decreasing, with the cache of a fresh
process starting with distinct keys forever. -/
theorem cache_size_invariants :
    (∀ (f : Fetcher) (n : Nat) (c : Cache) (r : Request),
      (keys c).Nodup → (keys (stepCache f n c r)).Nodup) ∧
    (∀ (f : Fetcher) (n : Nat) (c : Cache) (r : Request) (s : String),
      s ∈ keys c → s ∈ keys (stepCache f n c r)) ∧
    (∀ (n : Nat) (c : Cache), health_check n c = (200, Body.health n c.length)) ∧
    (∀ (c : Cache) (ts : List (Fetcher × Nat × Request)),
      c.length ≤ (runRequests c ts).length) ∧
    (∀ ts : List (Fetcher × Nat × Request), (keys (runRequests [] ts)).Nodup) := by
  refine ⟨?_, ?_, ?_, ?_, ?_⟩
  · intro f n c r hn
    exact (stepCache_grows f n c r).2.2 hn
  · intro f n c r s hs
    exact (stepCache_grows f n c r).2.1 s hs
  · intro n c
    rfl
  · intro c ts
    exact (runRequests_grows ts c).1
  · intro ts
    exact (runRequests_grows ts []).2.2 (by simp [keys])

/-- Witness for C9 at a concrete cache and request. -/
theorem cache_size_invariants_witness :
    (keys (stepCache fetchFailW 0 cacheW (Request.single "A"))).Nodup :=
  cache_size_invariants.1 fetchFailW 0 cacheW (Request.single "A") (by decide)

/-- Outcome shapes of the single-symbol handler: an unchanged cache with a
non-200 status, a cache hit, or a successful fetch that writes exactly one
entry for the requested symbol. -/
lemma get_yahoo_data_shape (f : Fetcher) (n : Nat) (c : Cache) (s : String) :
    ((get_yahoo_data f n c s).2 = c ∧ (get_yahoo_data f n c s).1.1 ≠ 200) ∨
    ((get_yahoo_data f n c s).2 = c ∧ (get_yahoo_data f n c s).1.1 = 200) ∨
    ((get_yahoo_data f n c s).1.1 = 200 ∧
      ∃ ch : CacheEntry, (get_yahoo_data f n c s).2 = assocInsert c s ch) := by
  have hFresh : ((freshSingle f n c s).2 = c ∧ (freshSingle f n c s).1.1 ≠ 200) ∨
      ((freshSingle f n c s).1.1 = 200 ∧
        ∃ ch : CacheEntry, (freshSingle f n c s).2 = assocInsert c s ch) := by
    rcases hf : f s with e | ⟨info, closes⟩
    · refine Or.inl ⟨?_, ?_⟩ <;> simp [freshSingle, hf]
    · by_cases hc : closes.isEmpty = true
      · refine Or.inl ⟨?_, ?_⟩ <;> simp [freshSingle, hf, hc]
      · refine Or.inr ⟨?_, ⟨⟨singleChart s info closes n, n⟩, ?_⟩⟩ <;>
          simp [freshSingle, hf, hc]
  unfold get_yahoo_data
  rcases assocLookup c s with _ | e
  · rcases hFresh with h | h
    · exact Or.inl h
    · exact Or.inr (Or.inr h)
  · by_cases hv : is_cache_valid n e.timestamp
    · refine Or.inr (Or.inl ⟨?_, ?_⟩) <;> simp [hv]
    · simp only [hv, if_false]
      rcases hFresh with h | h
      · exact Or.inl h
      · exact Or.inr (Or.inr h)

/-- Outcome shapes of one bulk iteration: cache hit, an error entry with the
cache untouched, or a successful fetch that writes exactly one entry. -/
lemma bulkProcessSymbol_shape (f : Fetcher) (n : Nat) (c : Cache) (s : String) :
    ((bulkProcessSymbol f n c s).2 = c ∧
      ∃ ch, (bulkProcessSymbol f n c s).1 = BulkEntry.ok ch) ∨
    ((bulkProcessSymbol f n c s).2 = c ∧
      ∃ e, (bulkProcessSymbol f n c s).1 = BulkEntry.err e) ∨
    (∃ info closes, f s = Except.ok (info, closes) ∧ closes.isEmpty = false ∧
      (bulkProcessSymbol f n c s).1 = BulkEntry.ok (bulkChart s info closes n) ∧
      (bulkProcessSymbol f n c s).2 = assocInsert c s ⟨bulkChart s info closes n, n⟩) := by
  have hFresh : ((bulkFresh f n c s).2 = c ∧
      ∃ e, (bulkFresh f n c s).1 = BulkEntry.err e) ∨
      (∃ info closes, f s = Except.ok (info, closes) ∧ closes.isEmpty = false ∧
        (bulkFresh f n c s).1 = BulkEntry.ok (bulkChart s info closes n) ∧
        (bulkFresh f n c s).2 = assocInsert c s ⟨bulkChart s info closes n, n⟩) := by
    rcases hf : f s with e | ⟨info, closes⟩
    · refine Or.inl ⟨?_, ⟨e, ?_⟩⟩ <;> simp [bulkFresh, hf]
    · by_cases hc : closes.isEmpty = true
      · refine Or.inl ⟨?_, ⟨"No data for " ++ s, ?_⟩⟩ <;> simp [bulkFresh, hf, hc]
      · refine Or.inr ⟨info, closes, ?_, by simpa using hc, ?_, ?_⟩ <;>
          simp [bulkFresh, hf, hc]
  unfold bulkProcessSymbol
  rcases assocLookup c s with _ | e
  · rcases hFresh with h | h
    · exact Or.inr (Or.inl h)
    · exact Or.inr (Or.inr h)
  · by_cases hv : is_cache_valid n e.timestamp
    · refine Or.inl ⟨?_, ⟨e.data, ?_⟩⟩ <;> simp [hv]
    · simp only [hv, if_false]
      rcases hFresh with h | h
      · exact Or.inr (Or.inl h)
      · exact Or.inr (Or.inr h)

/-- C10: an error outcome leaves the cache exactly as it was — a non-200
single-symbol response changes nothing, a bulk error entry changes nothing —
and a cache write happens only alongside a successful envelope: a changed
cache on the single path implies status 200, and on the bulk path implies a
successful fetch whose envelope was both returned and cached. -/
theorem error_leaves_cache_unchanged :
    (∀ (f : Fetcher) (n : Nat) (c : Cache) (s : String),
      (get_yahoo_data f n c s).1.1 ≠ 200 → (get_yahoo_data f n c s).2 = c) ∧
    (∀ (f : Fetcher) (n : Nat) (c : Cache) (s : String) (e : String),
      (bulkProcessSymbol f n c s).1 = BulkEntry.err e →
        (bulkProcessSymbol f n c s).2 = c) ∧
    (∀ (f : Fetcher) (n : Nat) (c : Cache) (s : String),
      (get_yahoo_data f n c s).2 ≠ c → (get_yahoo_data f n c s).1.1 = 200) ∧
    (∀ (f : Fetcher) (n : Nat) (c : Cache) (s : String),
      (bulkProcessSymbol f n c s).2 ≠ c →
        ∃ info closes, f s = Except.ok (info, closes) ∧ closes.isEmpty = false ∧
          (bulkProcessSymbol f n c s).1 = BulkEntry.ok (bulkChart s info closes n) ∧
          (bulkProcessSymbol f n c s).2 = assocInsert c s ⟨bulkChart s info closes n, n⟩) := by
  refine ⟨?_, ?_, ?_, ?_⟩
  · intro f n c s h
    rcases get_yahoo_data_shape f n c s with ⟨h2, _⟩ | ⟨h2, hs⟩ | ⟨hs, _⟩
    · exact h2
    · exact h2
    · exact absurd hs h
  · intro f n c s e h
    rcases bulkProcessSymbol_shape f n c s with ⟨h2, _, hok⟩ | ⟨h2, _⟩ | ⟨_, _, _, _, hok, _⟩
    · rw [h] at hok
      exact absurd hok (by simp)
    · exact h2
    · rw [h] at hok
      exact absurd hok (by simp)
  · intro f n c s h
    rcases get_yahoo_data_shape f n c s with ⟨h2, _⟩ | ⟨h2, hs⟩ | ⟨hs, _⟩
    · exact absurd h2 h
    · exact absurd h2 h
    · exact hs
  · intro f n c s h
    rcases bulkProcessSymbol_shape f n c s with ⟨h2, _⟩ | ⟨h2, _⟩ | hsucc
    · exact absurd h2 h
    · exact absurd h2 h
    · exact hsucc

/-- Witness for C10: a failing fetch leaves the empty cache empty. -/
theorem error_leaves_cache_unchanged_witness :
    (get_yahoo_data fetchFailW 0 [] "X").2 = [] :=
  error_leaves_cache_unchanged.1 fetchFailW 0 [] "X" (by decide)

end YahooProxy
